import Mathlib

/-!
Verification of the Zephyr layout module (`dwave_networkx/drawing/zephyr_layout.py`).

The module computes 2D/3D embedding coordinates for nodes of a Zephyr lattice
graph.  We give a shallow embedding: Python floats become exact rationals (the
constants 0.625, 0.125 and 0.5 are exactly representable and the claims are
about the arithmetic formulas), a `networkx` graph becomes an explicit record
of the metadata fields and node list the source reads, the closure returned by
`zephyr_node_placer_2d` becomes its captured environment (a `PlacerEnv` record)
plus the function `_xy_coords` of that environment, and Python exceptions
become `Except String`.
-/

set_option autoImplicit false

namespace ZephyrLayout

/-- Decidable equality for `Except`, so that concrete runs of the embedded
functions can be checked by `decide`. -/
instance instDecidableEqExcept {ε α : Type} [DecidableEq ε] [DecidableEq α] :
    DecidableEq (Except ε α) := fun x y =>
  match x, y with
  | .error a, .error b =>
    if h : a = b then .isTrue (congrArg Except.error h)
    else .isFalse (fun hh => h (Except.error.inj hh))
  | .error _, .ok _ => .isFalse (fun hh => Except.noConfusion hh)
  | .ok _, .error _ => .isFalse (fun hh => Except.noConfusion hh)
  | .ok a, .ok b =>
    if h : a = b then .isTrue (congrArg Except.ok h)
    else .isFalse (fun hh => h (Except.ok.inj hh))

/-- A Zephyr lattice index: the 5-tuple (u, w, k, j, z) of integers.
u = orientation bit, w = major offset, k = secondary offset,
j = minor offset, z = parallel offset. -/
structure ZIdx where
  u : Int
  w : Int
  k : Int
  j : Int
  z : Int
deriving DecidableEq, Repr

/-- A node identifier of the (dynamically typed) graph: either a 5-tuple
(coordinate labeling) or a linear integer (integer labeling). -/
inductive PyVal where
  | tup (i : ZIdx)
  | int (n : Nat)
deriving DecidableEq, Repr

/-- The graph data the source reads: `G.graph` metadata entries (absent entries
are `none`, matching `dict.get`), the node list, and the per-node
`zephyr_index` attribute table (an association list; empty when the graph
carries no node data). -/
structure ZGraph where
  family : Option String
  rows : Option Nat
  tile : Option Nat
  columns : Option Nat
  labels : Option String
  data : Bool
  nodes : List PyVal
  nodeData : List (PyVal × ZIdx)
  edges : List (PyVal × PyVal)
deriving DecidableEq, Repr

/-- Attribute lookup in the per-node data table (Python `dat['zephyr_index']`). -/
def attrLookup (l : List (PyVal × ZIdx)) (v : PyVal) : Option ZIdx :=
  match l with
  | [] => none
  | (a, i) :: rest => if a = v then some i else attrLookup rest v

/-- Python unpacking `xy_coords(*v)` of a node identifier used as a 5-tuple;
fails (TypeError) on an integer identifier. -/
def unpack5 (v : PyVal) : Option ZIdx :=
  match v with
  | .tup i => some i
  | .int _ => none

/-- Extraction of an integer node identifier; fails on a tuple identifier. -/
def asInt (v : PyVal) : Option Nat :=
  match v with
  | .tup _ => none
  | .int n => some n

/-- Modelled from the spec: the external linear-to-lattice-index converter
`zephyr_coordinates(m, t).linear_to_zephyr` (in `dwave_networkx.generators.zephyr`,
not part of the analysed source).  The spec describes it only as the inverse of
the graph's internal linear-labeling scheme; the Zephyr linear labeling
enumerates (u, w, k, j, z) in row-major order over the ranges u < 2,
w < 2m+1, k < t, j < 2, z < m, so its inverse is mixed-radix decoding. -/
def linear_to_zephyr (m t : Nat) (v : Nat) : ZIdx :=
  { u := (v / (m * 2 * t * (2 * m + 1)) : Nat)
    w := ((v / (m * 2 * t)) % (2 * m + 1) : Nat)
    k := ((v / (m * 2)) % t : Nat)
    j := ((v / m) % 2 : Nat)
    z := (v % m : Nat) }

/-- The environment captured by the closure `_xy_coords` that
`zephyr_node_placer_2d` returns: the tile width, the normalized scale, the
number of padding dimensions, and the (defaulted) center. -/
structure PlacerEnv where
  tile_width : Nat
  scale : ℚ
  paddims : Nat
  center : List ℚ
deriving DecidableEq, Repr

/-- The inner closure of `zephyr_node_placer_2d`:

    W = 2*tile_width*w + 2*k + .625*j + .125
    Z = (2*z+j+1)*2*tile_width - .5
    xy = [W, -Z] if u else [Z, -W]
    return hstack((xy * scale, zeros(paddims))) + center
-/
def _xy_coords (env : PlacerEnv) (u w k j z : Int) : List ℚ :=
  let W : ℚ := 2 * env.tile_width * w + 2 * k + 0.625 * j + 0.125
  let Z : ℚ := (2 * z + j + 1) * 2 * env.tile_width - 0.5
  let xy : List ℚ := if u ≠ 0 then [W, -Z] else [Z, -W]
  List.zipWith (fun a b => a + b)
    (xy.map (fun a => a * env.scale) ++ List.replicate env.paddims 0) env.center

/-- Error raised when `G.graph.get('rows')` or `G.graph.get('tile')` is `None`
and the source computes `m * tile_width` (Python TypeError). -/
def noneArithmeticError : String :=
  "TypeError: unsupported operand type for NoneType"

/-- Error raised by `scale /= m * tile_width` when `m * tile_width == 0`. -/
def zeroDivisionError : String :=
  "ZeroDivisionError: float division by zero"

/-- The configuration error for fewer than two layout dimensions. -/
def dimError : String := "layout must have at least two dimensions"

/-- The configuration error for a center whose length differs from `dim`. -/
def centerError : String :=
  "length of center coordinates must match dimension of layout"

/-- Translation of `zephyr_node_placer_2d(G, scale, center, dim)`: reads rows and tile from
the graph metadata, normalizes the scale by `m * tile_width`, defaults the
center to the origin, validates `dim` and the center length (in source order),
and returns the closure environment for `_xy_coords`. -/
def zephyr_node_placer_2d (G : ZGraph) (scale : ℚ) (center : Option (List ℚ))
    (dim : Nat) : Except String PlacerEnv :=
  match G.rows, G.tile with
  | some m, some tile_width =>
    -- scale /= m * tile_width
    if m * tile_width = 0 then .error zeroDivisionError
    else
      -- paddims = dim - 2; if paddims < 0: raise (over Nat: dim - 2 < 0 iff dim < 2)
      if dim < 2 then .error dimError
      else
        -- center = np.zeros(dim) if center is None else np.asarray(center);
        -- if len(center) != dim: raise
        if (center.getD (List.replicate dim 0)).length ≠ dim then .error centerError
        else .ok { tile_width := tile_width,
                   scale := scale / ((m : ℚ) * tile_width),
                   paddims := dim - 2,
                   center := center.getD (List.replicate dim 0) }
  | _, _ => .error noneArithmeticError

/-- The validation error of `zephyr_layout` for a graph not tagged as Zephyr. -/
def familyError : String := "G must be generated by dwave_networkx.zephyr_graph"

/-- Error raised when a node identifier does not fit the labeling scheme the
branch expects (tuple unpacking of an integer, missing `zephyr_index`
attribute, or a tuple where a linear integer is expected). -/
def nodeError : String := "TypeError: node does not fit the labeling scheme"

/-- Builds the position map `{v: f(v) for v in nodes}`, propagating a per-node
failure as an exception, as the source's dict comprehension would. -/
def mapPos (l : List PyVal) (f : PyVal → Option (List ℚ)) :
    Except String (List (PyVal × List ℚ)) :=
  match l with
  | [] => .ok []
  | v :: rest =>
    match f v with
    | none => .error nodeError
    | some p =>
      match mapPos rest f with
      | .error e => .error e
      | .ok ps => .ok ((v, p) :: ps)

/-- Application of the placer closure to a 5-tuple index. -/
def applyPlacer (env : PlacerEnv) (i : ZIdx) : List ℚ :=
  _xy_coords env i.u i.w i.k i.j i.z

/-- Translation of `zephyr_layout(G, scale, center, dim)`: validates the family tag, builds
the coordinate mapper, then resolves every node's lattice index by the
labeling scheme — node identifiers themselves when `labels == 'coordinate'`,
the `zephyr_index` node attribute when the graph carries node data, and the
linear-to-Zephyr conversion of the integer identifier otherwise. -/
def zephyr_layout (G : ZGraph) (scale : ℚ) (center : Option (List ℚ))
    (dim : Nat) : Except String (List (PyVal × List ℚ)) :=
  if G.family ≠ some "zephyr" then .error familyError
  else
    match zephyr_node_placer_2d G scale center dim with
    | .error e => .error e
    | .ok xy_coords =>
      if G.labels = some "coordinate" then
        mapPos G.nodes (fun v => (unpack5 v).map (applyPlacer xy_coords))
      else if G.data then
        mapPos G.nodes (fun v =>
          (attrLookup G.nodeData v).map (applyPlacer xy_coords))
      else
        match G.rows, G.tile with
        | some m, some t =>
          mapPos G.nodes (fun v =>
            (asInt v).map (fun n => applyPlacer xy_coords (linear_to_zephyr m t n)))
        | _, _ => .error noneArithmeticError

/-- Modelled from the spec: the external lattice graph constructor
`zephyr_graph(m, t, coordinates=...)` (in `dwave_networkx.generators.zephyr`,
not part of the analysed source).  Per the spec it produces a graph tagged
family="zephyr" with metadata {rows, tile width, columns, labeling mode},
whose nodes are labeled as 5-tuples or linear integers and carry embedded
index attributes.  Edge structure is not modelled: the layout functions under
verification never read edges. -/
def zephyr_graph (m t : Nat) (coordinates : Bool) : ZGraph :=
  let coordNodes : List ZIdx :=
    (List.range 2).flatMap (fun u =>
    (List.range (2 * m + 1)).flatMap (fun w =>
    (List.range t).flatMap (fun k =>
    (List.range 2).flatMap (fun j =>
    (List.range m).map (fun z =>
      ({ u := u, w := w, k := k, j := j, z := z } : ZIdx))))))
  let n := 4 * t * m * (2 * m + 1)
  { family := some "zephyr"
    rows := some m
    tile := some t
    columns := some m
    labels := some (if coordinates then "coordinate" else "int")
    data := true
    nodes := if coordinates then coordNodes.map PyVal.tup
             else (List.range n).map PyVal.int
    nodeData := if coordinates then coordNodes.map (fun i => (PyVal.tup i, i))
                else (List.range n).map (fun v => (PyVal.int v, linear_to_zephyr m t v))
    edges := [] }

/-- The configuration error of `draw_zephyr_yield` for missing graph metadata
(the message of the source's blanket `except` clause). -/
def yieldMetadataError : String :=
  "Target zephyr graph needs to have columns, rows, tile, and label attributes to be able to identify faulty qubits."

/-- Translation of `draw_zephyr_yield(G)`: inside a `try` block asserts the family tag and
reads `columns`, `tile` and `labels`; any failure becomes the metadata
configuration error.  It then constructs the perfect reference graph from the
columns and tile values and lays it out; the pair handed to the external
`draw_yield` collaborator (the perfect graph and its position map) is the
result. -/
def draw_zephyr_yield (G : ZGraph) :
    Except String (ZGraph × List (PyVal × List ℚ)) :=
  match G.family, G.columns, G.tile, G.labels with
  | some fam, some m, some t, some lbl =>
    if fam ≠ "zephyr" then .error yieldMetadataError
    else
      let coordinates := lbl = "coordinate"
      let perfect_graph := zephyr_graph m t coordinates
      match zephyr_layout perfect_graph 1 none 2 with
      | .error e => .error e
      | .ok pos => .ok (perfect_graph, pos)
  | _, _, _, _ => .error yieldMetadataError

/-- State-passing form of `zephyr_layout`: the graph is threaded through the
call and returned alongside the result, so that the absence of mutation is a
provable statement rather than an artifact of the embedding.  The body mirrors
`zephyr_layout`, whose source only ever reads `G` (`G.graph.get`, `G.nodes()`)
and never assigns to it. -/
def zephyr_layout_run (G : ZGraph) (scale : ℚ) (center : Option (List ℚ))
    (dim : Nat) : Except String (List (PyVal × List ℚ)) × ZGraph :=
  let famRead := (G.family, G)
  let G1 := famRead.2
  if famRead.1 ≠ some "zephyr" then (.error familyError, G1)
  else
    let placerRead := (zephyr_node_placer_2d G1 scale center dim, G1)
    let G2 := placerRead.2
    match placerRead.1 with
    | .error e => (.error e, G2)
    | .ok xy_coords =>
      let labelsRead := (G2.labels, G2)
      let G3 := labelsRead.2
      if labelsRead.1 = some "coordinate" then
        let nodesRead := (G3.nodes, G3)
        (mapPos nodesRead.1 (fun v => (unpack5 v).map (applyPlacer xy_coords)),
          nodesRead.2)
      else
        let dataRead := (G3.data, G3)
        let G4 := dataRead.2
        if dataRead.1 then
          let nodesRead := (G4.nodes, G4)
          (mapPos nodesRead.1 (fun v =>
              (attrLookup G4.nodeData v).map (applyPlacer xy_coords)),
            nodesRead.2)
        else
          let rowsRead := (G4.rows, G4)
          let G5 := rowsRead.2
          let tileRead := (G5.tile, G5)
          let G6 := tileRead.2
          match rowsRead.1, tileRead.1 with
          | some m, some t =>
            let nodesRead := (G6.nodes, G6)
            (mapPos nodesRead.1 (fun v =>
                (asInt v).map (fun n => applyPlacer xy_coords (linear_to_zephyr m t n))),
              nodesRead.2)
          | _, _ => (.error noneArithmeticError, G6)

/-- The spec's index-resolution policy for the Layout Builder, stated in the
spec's own words for claim C6 (to be compared with `zephyr_layout`, which is
translated from the source): (1) if the labeling mode is "coordinate" the
node identifier itself is the 5-tuple index; (2) else, if per-node embedded
data is present, the index is the node's `zephyr_index` attribute; (3) else
the integer identifier is converted through the converter built from the
graph's rows and tile width. -/
def resolve_index_spec (G : ZGraph) (v : PyVal) : Option ZIdx :=
  if G.labels = some "coordinate" then unpack5 v
  else if G.data = true then attrLookup G.nodeData v
  else
    match G.rows, G.tile with
    | some m, some t => (asInt v).map (linear_to_zephyr m t)
    | _, _ => none

/-- A Zephyr-family graph is well formed for its labeling scheme when every
node identifier can be resolved by the branch `zephyr_layout` will take:
tuples under coordinate labeling, a present `zephyr_index` attribute under
embedded node data, integers under linear labeling. -/
def goodNodes (G : ZGraph) : Prop :=
  if G.labels = some "coordinate" then
    ∀ v ∈ G.nodes, (unpack5 v).isSome = true
  else if G.data = true then
    ∀ v ∈ G.nodes, (attrLookup G.nodeData v).isSome = true
  else
    ∀ v ∈ G.nodes, (asInt v).isSome = true

instance (G : ZGraph) : Decidable (goodNodes G) := by
  unfold goodNodes
  infer_instance

/-- A small concrete Zephyr lattice graph (rows = 1, tile width = 1,
coordinate labeling), used to instantiate hypotheses at concrete inputs. -/
def exampleCoordGraph : ZGraph := zephyr_graph 1 1 true

/-- A concrete graph that is not tagged as Zephyr family. -/
def nonZephyrGraph : ZGraph :=
  { family := some "chimera", rows := some 1, tile := some 1,
    columns := some 1, labels := some "int", data := false,
    nodes := [PyVal.int 0], nodeData := [], edges := [] }

/-- A concrete graph exercising the priority between the coordinate-labeling
branch and the embedded-data branch: labeling mode is "coordinate" and node
data is present but deliberately inconsistent with the node identifiers. -/
def priorityGraph : ZGraph :=
  { family := some "zephyr", rows := some 1, tile := some 1,
    columns := some 1, labels := some "coordinate", data := true,
    nodes := [PyVal.tup { u := 1, w := 0, k := 0, j := 0, z := 0 }],
    nodeData := [(PyVal.tup { u := 1, w := 0, k := 0, j := 0, z := 0 },
                  { u := 0, w := 0, k := 0, j := 0, z := 0 })],
    edges := [] }

/-- A concrete graph with `columns`, `tile` and `labels` metadata but no
`rows` entry, for the yield-drawing claims. -/
def noRowsGraph : ZGraph :=
  { family := some "zephyr", rows := none, tile := some 1,
    columns := some 1, labels := some "coordinate", data := false,
    nodes := [], nodeData := [], edges := [] }

/-- A second concrete rows-less graph, with integer labeling. -/
def noRowsIntGraph : ZGraph :=
  { family := some "zephyr", rows := none, tile := some 1,
    columns := some 1, labels := some "int", data := false,
    nodes := [], nodeData := [], edges := [] }

/-- A concrete graph lacking the `tile` metadata entry. -/
def noTileGraph : ZGraph :=
  { family := some "zephyr", rows := some 1, tile := none,
    columns := some 1, labels := some "coordinate", data := false,
    nodes := [], nodeData := [], edges := [] }

/-! ### Helper lemmas -/

theorem zipWith_add_replicate_zero (xs : List ℚ) (n : Nat) (h : xs.length = n) :
    List.zipWith (fun a b => a + b) xs (List.replicate n (0 : ℚ)) = xs := by
  subst h
  induction xs with
  | nil => rfl
  | cons x xs ih => simp [List.replicate_succ, ih]

theorem placer_eval_some (G : ZGraph) (m t : Nat) (hrows : G.rows = some m)
    (htile : G.tile = some t) (hmt : m * t ≠ 0) (scale : ℚ) (dim : Nat)
    (hdim : 2 ≤ dim) (c : List ℚ) (hlen : c.length = dim) :
    zephyr_node_placer_2d G scale (some c) dim =
      .ok { tile_width := t, scale := scale / ((m : ℚ) * t),
            paddims := dim - 2, center := c } := by
  unfold zephyr_node_placer_2d
  rw [hrows, htile]
  simp [hmt, hlen, Nat.not_lt.mpr hdim]

theorem placer_eval_none (G : ZGraph) (m t : Nat) (hrows : G.rows = some m)
    (htile : G.tile = some t) (hmt : m * t ≠ 0) (scale : ℚ) (dim : Nat)
    (hdim : 2 ≤ dim) :
    zephyr_node_placer_2d G scale none dim =
      .ok { tile_width := t, scale := scale / ((m : ℚ) * t),
            paddims := dim - 2, center := List.replicate dim 0 } := by
  unfold zephyr_node_placer_2d
  rw [hrows, htile]
  simp [hmt, Nat.not_lt.mpr hdim]

theorem placer_error_cases (G : ZGraph) (scale : ℚ) (center : Option (List ℚ))
    (dim : Nat) (e : String)
    (h : zephyr_node_placer_2d G scale center dim = .error e) :
    e = zeroDivisionError ∨ e = noneArithmeticError ∨ e = dimError ∨
      e = centerError := by
  unfold zephyr_node_placer_2d at h
  split at h
  · split at h
    · exact Or.inl (Except.error.inj h).symm
    · split at h
      · exact Or.inr (Or.inr (Or.inl (Except.error.inj h).symm))
      · split at h
        · exact Or.inr (Or.inr (Or.inr (Except.error.inj h).symm))
        · exact absurd h (fun hh => Except.noConfusion hh)
  · exact Or.inr (Or.inl (Except.error.inj h).symm)

theorem mapPos_error (l : List PyVal) (f : PyVal → Option (List ℚ)) (e : String)
    (h : mapPos l f = .error e) : e = nodeError := by
  induction l with
  | nil => exact absurd h (by simp [mapPos])
  | cons v rest ih =>
    unfold mapPos at h
    cases hf : f v with
    | none =>
      rw [hf] at h
      simp only [] at h
      exact (Except.error.inj h).symm
    | some p =>
      rw [hf] at h
      cases hm : mapPos rest f with
      | error e2 =>
        rw [hm] at h
        simp only [] at h
        rw [Except.error.inj h] at hm
        exact ih hm
      | ok ps =>
        rw [hm] at h
        simp only [] at h
        exact absurd h (fun hh => Except.noConfusion hh)

theorem mapPos_eq_map (l : List PyVal) (f : PyVal → Option (List ℚ))
    (g : PyVal → List ℚ) (h : ∀ v ∈ l, f v = some (g v)) :
    mapPos l f = .ok (l.map (fun v => (v, g v))) := by
  induction l with
  | nil => rfl
  | cons v rest ih =>
    unfold mapPos
    rw [h v (List.mem_cons_self v rest),
      ih (fun w hw => h w (List.mem_cons_of_mem v hw))]
    rfl

/-! ### Claim C1: the exact mapping formula -/

/-- C1: For every lattice index (u, w, k, j, z) and every valid configuration
(rows m ≥ 1, tile width t ≥ 1, any scale, center of length dim, dim ≥ 2), the
mapper construction succeeds with effective scale = scale / (m * t), and the
mapper computes W = 2*t*w + 2*k + 0.625*j + 0.125 and
Z = (2*z + j + 1)*2*t - 0.5, takes the base point (W, -Z) when u is nonzero
and (Z, -W) when u = 0, multiplies it by the effective scale, pads with
dim - 2 zeros and translates coordinate-wise by the center. -/
theorem C1_mapper_formula (G : ZGraph) (m t : Nat) (hm : 1 ≤ m) (ht : 1 ≤ t)
    (hrows : G.rows = some m) (htile : G.tile = some t)
    (scale : ℚ) (dim : Nat) (hdim : 2 ≤ dim) (c : List ℚ) (hlen : c.length = dim)
    (u w k j z : Int) :
    zephyr_node_placer_2d G scale (some c) dim =
      .ok { tile_width := t, scale := scale / ((m : ℚ) * t),
            paddims := dim - 2, center := c } ∧
    _xy_coords { tile_width := t, scale := scale / ((m : ℚ) * t),
                 paddims := dim - 2, center := c } u w k j z =
      List.zipWith (fun a b => a + b)
        ((if u ≠ 0 then
            [2 * (t : ℚ) * w + 2 * k + 0.625 * j + 0.125,
             -((2 * (z : ℚ) + j + 1) * 2 * t - 0.5)]
          else
            [(2 * (z : ℚ) + j + 1) * 2 * t - 0.5,
             -(2 * (t : ℚ) * w + 2 * k + 0.625 * j + 0.125)]).map
          (fun a => a * (scale / ((m : ℚ) * t))) ++
          List.replicate (dim - 2) 0) c := by
  have hmt : m * t ≠ 0 := Nat.mul_ne_zero (by omega) (by omega)
  refine ⟨placer_eval_some G m t hrows htile hmt scale dim hdim c hlen, ?_⟩
  simp only [_xy_coords]

/-- Witness for C1 at a concrete input: the rows = 1, tile = 1 lattice,
index (1, 0, 0, 0, 0), scale 1, center [0, 0], dim 2. -/
theorem C1_mapper_formula_witness :
    zephyr_node_placer_2d exampleCoordGraph 1 (some [0, 0]) 2 =
      .ok { tile_width := 1, scale := 1 / (((1 : Nat) : ℚ) * ((1 : Nat) : ℚ)),
            paddims := 2 - 2, center := [0, 0] } ∧
    _xy_coords { tile_width := 1, scale := 1 / (((1 : Nat) : ℚ) * ((1 : Nat) : ℚ)),
                 paddims := 2 - 2, center := [0, 0] } 1 0 0 0 0 = [0.125, -1.5] := by
  have h := C1_mapper_formula exampleCoordGraph 1 1 (by norm_num) (by norm_num)
    rfl rfl 1 2 (by norm_num) [0, 0] rfl 1 0 0 0 0
  refine ⟨h.1, ?_⟩
  rw [h.2]
  norm_num

/-! ### Claim C3: construction-time validation -/

/-- C3: Construction of the coordinate mapper fails iff dim < 2 (with the
"layout must have at least two dimensions" error) or a supplied center has
length ≠ dim (with the center-length error, checked after the dimension
check); an unsupplied center defaults to the origin in dim dimensions, and
dim = 2 succeeds with no padding dimensions. -/
theorem C3_construction_validation (G : ZGraph) (m t : Nat) (hm : 1 ≤ m)
    (ht : 1 ≤ t) (hrows : G.rows = some m) (htile : G.tile = some t)
    (scale : ℚ) (center : Option (List ℚ)) (dim : Nat) :
    ((∃ e, zephyr_node_placer_2d G scale center dim = .error e) ↔
        dim < 2 ∨ ∃ c, center = some c ∧ c.length ≠ dim) ∧
    (zephyr_node_placer_2d G scale center dim = .error dimError ↔ dim < 2) ∧
    (zephyr_node_placer_2d G scale center dim = .error centerError ↔
        2 ≤ dim ∧ ∃ c, center = some c ∧ c.length ≠ dim) ∧
    (2 ≤ dim →
      zephyr_node_placer_2d G scale none dim =
        .ok { tile_width := t, scale := scale / ((m : ℚ) * t),
              paddims := dim - 2, center := List.replicate dim 0 }) ∧
    (dim = 2 → ∀ env, zephyr_node_placer_2d G scale center dim = .ok env →
      env.paddims = 0 ∧ env.center.length = 2) := by
  have hmt : m * t ≠ 0 := Nat.mul_ne_zero (by omega) (by omega)
  have hdimErr : dim < 2 → zephyr_node_placer_2d G scale center dim = .error dimError := by
    intro hd
    unfold zephyr_node_placer_2d
    rw [hrows, htile]
    simp [hmt, hd]
  have hcenErr : ∀ c, center = some c → c.length ≠ dim → ¬ dim < 2 →
      zephyr_node_placer_2d G scale center dim = .error centerError := by
    intro c hc hne hd
    unfold zephyr_node_placer_2d
    rw [hrows, htile, hc]
    simp [hmt, hd, hne]
  have hok : ∀ c, center = some c → c.length = dim → ¬ dim < 2 →
      zephyr_node_placer_2d G scale center dim =
        .ok { tile_width := t, scale := scale / ((m : ℚ) * t),
              paddims := dim - 2, center := c } := by
    intro c hc hlen hd
    rw [hc]
    exact placer_eval_some G m t hrows htile hmt scale dim (by omega) c hlen
  have hokNone : ¬ dim < 2 →
      zephyr_node_placer_2d G scale none dim =
        .ok { tile_width := t, scale := scale / ((m : ℚ) * t),
              paddims := dim - 2, center := List.replicate dim 0 } :=
    fun hd => placer_eval_none G m t hrows htile hmt scale dim (by omega)
  refine ⟨?_, ?_, ?_, fun hd => hokNone (by omega), ?_⟩
  · constructor
    · rintro ⟨e, he⟩
      by_cases hd : dim < 2
      · exact Or.inl hd
      · rcases hc : center with _ | c
        · rw [hc] at he
          rw [hokNone hd] at he
          exact absurd he (fun hh => Except.noConfusion hh)
        · by_cases hlen : c.length = dim
          · rw [hok c hc hlen hd] at he
            exact absurd he (fun hh => Except.noConfusion hh)
          · exact Or.inr ⟨c, rfl, hlen⟩
    · rintro (hd | ⟨c, hc, hlen⟩)
      · exact ⟨dimError, hdimErr hd⟩
      · by_cases hd : dim < 2
        · exact ⟨dimError, hdimErr hd⟩
        · exact ⟨centerError, hcenErr c hc hlen hd⟩
  · constructor
    · intro he
      by_contra hd
      rcases hc : center with _ | c
      · rw [hc] at he
        rw [hokNone hd] at he
        exact Except.noConfusion he
      · by_cases hlen : c.length = dim
        · rw [hok c hc hlen hd] at he
          exact Except.noConfusion he
        · rw [hcenErr c hc hlen hd] at he
          have : centerError = dimError := Except.error.inj he
          exact absurd this (by decide)
    · exact hdimErr
  · constructor
    · intro he
      by_cases hd : dim < 2
      · rw [hdimErr hd] at he
        have : dimError = centerError := Except.error.inj he
        exact absurd this (by decide)
      · refine ⟨by omega, ?_⟩
        rcases hc : center with _ | c
        · rw [hc] at he
          rw [hokNone hd] at he
          exact absurd he (fun hh => Except.noConfusion hh)
        · by_cases hlen : c.length = dim
          · rw [hok c hc hlen hd] at he
            exact absurd he (fun hh => Except.noConfusion hh)
          · exact ⟨c, rfl, hlen⟩
    · rintro ⟨hd, c, hc, hlen⟩
      exact hcenErr c hc hlen (by omega)
  · rintro rfl env henv
    by_cases hd : (2 : Nat) < 2
    · omega
    · rcases hc : center with _ | c
      · rw [hc] at henv
        rw [hokNone hd] at henv
        rw [← Except.ok.inj henv]
        exact ⟨rfl, rfl⟩
      · by_cases hlen : c.length = 2
        · rw [hok c hc hlen hd] at henv
          rw [← Except.ok.inj henv]
          exact ⟨rfl, hlen⟩
        · rw [hcenErr c hc hlen hd] at henv
          exact absurd henv (fun hh => Except.noConfusion hh)

/-- Witness for C3 at concrete inputs: on the rows = 1, tile = 1 lattice a
center of length 3 with dim = 2 is rejected with the center-length error. -/
theorem C3_construction_validation_witness :
    zephyr_node_placer_2d exampleCoordGraph 1 (some [0, 0, 0]) 2 =
      .error centerError :=
  (C3_construction_validation exampleCoordGraph 1 1 (by norm_num) (by norm_num)
      rfl rfl 1 (some [0, 0, 0]) 2).2.2.1.mpr
    ⟨by norm_num, [0, 0, 0], rfl, by norm_num⟩

/-! ### Claim C8: translation by the center -/

/-- C8: For every lattice index and valid configuration, the mapper with
center C returns, coordinate-wise, the mapper with center at the origin
applied to the same index plus C. -/
theorem C8_translation (G : ZGraph) (m t : Nat) (hm : 1 ≤ m) (ht : 1 ≤ t)
    (hrows : G.rows = some m) (htile : G.tile = some t)
    (scale : ℚ) (dim : Nat) (hdim : 2 ≤ dim) (c : List ℚ) (hlen : c.length = dim)
    (u w k j z : Int) (envC env0 : PlacerEnv)
    (hC : zephyr_node_placer_2d G scale (some c) dim = .ok envC)
    (h0 : zephyr_node_placer_2d G scale (some (List.replicate dim 0)) dim = .ok env0) :
    _xy_coords envC u w k j z =
      List.zipWith (fun a b => a + b) (_xy_coords env0 u w k j z) c := by
  have hmt : m * t ≠ 0 := Nat.mul_ne_zero (by omega) (by omega)
  rw [placer_eval_some G m t hrows htile hmt scale dim hdim c hlen] at hC
  rw [placer_eval_some G m t hrows htile hmt scale dim hdim
    (List.replicate dim 0) (by simp)] at h0
  rw [← Except.ok.inj hC, ← Except.ok.inj h0]
  simp only [_xy_coords]
  rw [zipWith_add_replicate_zero]
  split <;> simp <;> omega

/-- Witness for C8 at a concrete input: rows = 1, tile = 1, scale 1, dim 2,
center [3, 5], index (1, 0, 0, 0, 0). -/
theorem C8_translation_witness :
    _xy_coords { tile_width := 1, scale := 1 / (((1 : Nat) : ℚ) * ((1 : Nat) : ℚ)),
                 paddims := 2 - 2, center := [3, 5] } 1 0 0 0 0 =
      List.zipWith (fun a b => a + b)
        (_xy_coords { tile_width := 1, scale := 1 / (((1 : Nat) : ℚ) * ((1 : Nat) : ℚ)),
                      paddims := 2 - 2, center := List.replicate 2 0 } 1 0 0 0 0)
        [3, 5] :=
  C8_translation exampleCoordGraph 1 1 (by norm_num) (by norm_num) rfl rfl
    1 2 (by norm_num) [3, 5] rfl 1 0 0 0 0 _ _ rfl rfl

/-! ### Claim C4: the end-to-end example point -/

/-- C4 as stated is false: on the rows = 2, tile = 4 (the default tile width)
coordinate-labeled Zephyr lattice at scale 1, the mapper sends (1, 0, 0, 0, 0)
to (0.125/8, -7.5/8), not to (0.125/8, -0.125/8): the second coordinate is
-(2*t - 0.5)/(2*t), not -0.125/(2*t). -/
theorem C4_counterexample :
    zephyr_node_placer_2d (zephyr_graph 2 4 true) 1 none 2 =
      .ok { tile_width := 4, scale := 1 / (((2 : Nat) : ℚ) * ((4 : Nat) : ℚ)),
            paddims := 2 - 2, center := List.replicate 2 0 } ∧
    _xy_coords { tile_width := 4, scale := 1 / (((2 : Nat) : ℚ) * ((4 : Nat) : ℚ)),
                 paddims := 2 - 2, center := List.replicate 2 0 } 1 0 0 0 0 =
      [1 / 64, -(15 / 16)] ∧
    ([1 / 64, -(15 / 16)] : List ℚ) ≠ [0.125 / (2 * 4), -0.125 / (2 * 4)] := by
  refine ⟨rfl, ?_, by norm_num⟩
  simp only [_xy_coords]
  norm_num [List.replicate]

/-- C4 amended: on a rows = 2, tile width t lattice, labeling "coordinate",
default center, scale 1 and dim 2, the mapper sends (1, 0, 0, 0, 0) to
(0.125/(2*t), -(2*t - 0.5)/(2*t)) — the first coordinate is as the claim
stated, the second is -(2*t - 0.5)/(2*t) rather than -0.125/(2*t). -/
theorem C4_amended (G : ZGraph) (t : Nat) (ht : 1 ≤ t)
    (hrows : G.rows = some 2) (htile : G.tile = some t) :
    zephyr_node_placer_2d G 1 none 2 =
      .ok { tile_width := t, scale := 1 / (((2 : Nat) : ℚ) * t),
            paddims := 2 - 2, center := List.replicate 2 0 } ∧
    _xy_coords { tile_width := t, scale := 1 / (((2 : Nat) : ℚ) * t),
                 paddims := 2 - 2, center := List.replicate 2 0 } 1 0 0 0 0 =
      [0.125 / (2 * (t : ℚ)), -((2 * (t : ℚ) - 0.5) / (2 * t))] := by
  have hmt : 2 * t ≠ 0 := Nat.mul_ne_zero (by omega) (by omega)
  have htq : (t : ℚ) ≠ 0 := Nat.cast_ne_zero.mpr (by omega)
  refine ⟨placer_eval_none G 2 t hrows htile hmt 1 2 (by norm_num), ?_⟩
  simp only [_xy_coords]
  norm_num [List.replicate]
  constructor
  · field_simp
    ring
  · field_simp
    ring

/-- Witness for the amended C4 at the default tile width t = 4. -/
theorem C4_amended_witness :
    zephyr_node_placer_2d (zephyr_graph 2 4 true) 1 none 2 =
      .ok { tile_width := 4, scale := 1 / (((2 : Nat) : ℚ) * ((4 : Nat) : ℚ)),
            paddims := 2 - 2, center := List.replicate 2 0 } ∧
    _xy_coords { tile_width := 4, scale := 1 / (((2 : Nat) : ℚ) * ((4 : Nat) : ℚ)),
                 paddims := 2 - 2, center := List.replicate 2 0 } 1 0 0 0 0 =
      [0.125 / (2 * ((4 : Nat) : ℚ)), -((2 * ((4 : Nat) : ℚ) - 0.5) / (2 * ((4 : Nat) : ℚ)))] :=
  C4_amended (zephyr_graph 2 4 true) 4 (by norm_num) rfl rfl

/-! ### Claim C5: the orientation split -/

/-- C5 as stated is false: on the rows = 1, tile = 1 lattice with center at
the origin, the mapper sends (1, 0, 0, 0, 0) to (a, b) = (0.125, -1.5), and
sends (0, 0, 0, 0, 0) to (1.5, -0.125), which is (-b, -a) and differs from
the claimed (b, -a) = (-1.5, -0.125). -/
theorem C5_counterexample :
    zephyr_node_placer_2d exampleCoordGraph 1 none 2 =
      .ok { tile_width := 1, scale := 1 / (((1 : Nat) : ℚ) * ((1 : Nat) : ℚ)),
            paddims := 2 - 2, center := List.replicate 2 0 } ∧
    _xy_coords { tile_width := 1, scale := 1 / (((1 : Nat) : ℚ) * ((1 : Nat) : ℚ)),
                 paddims := 2 - 2, center := List.replicate 2 0 } 1 0 0 0 0 =
      [0.125, -1.5] ∧
    _xy_coords { tile_width := 1, scale := 1 / (((1 : Nat) : ℚ) * ((1 : Nat) : ℚ)),
                 paddims := 2 - 2, center := List.replicate 2 0 } 0 0 0 0 0 =
      [1.5, -0.125] ∧
    ([1.5, -0.125] : List ℚ) ≠ [-1.5, -0.125] := by
  refine ⟨rfl, ?_, ?_, by norm_num⟩ <;>
    · simp only [_xy_coords]
      norm_num [List.replicate]

/-- C5 amended: for fixed (w, k, j, z) and a valid configuration with center
at the origin, if the mapper gives (a, b, …) for index (1, w, k, j, z), then
it gives (-b, -a, …) for index (0, w, k, j, z) — swap and negate both
coordinates, rather than the claimed (b, -a). -/
theorem C5_amended (G : ZGraph) (m t : Nat) (hm : 1 ≤ m) (ht : 1 ≤ t)
    (hrows : G.rows = some m) (htile : G.tile = some t)
    (scale : ℚ) (dim : Nat) (hdim : 2 ≤ dim) (w k j z : Int) (env : PlacerEnv)
    (henv : zephyr_node_placer_2d G scale none dim = .ok env)
    (a b : ℚ) (rest : List ℚ)
    (hu1 : _xy_coords env 1 w k j z = a :: b :: rest) :
    _xy_coords env 0 w k j z = (-b) :: (-a) :: rest := by
  have hmt : m * t ≠ 0 := Nat.mul_ne_zero (by omega) (by omega)
  rw [placer_eval_none G m t hrows htile hmt scale dim hdim] at henv
  rw [← Except.ok.inj henv] at hu1 ⊢
  have hW :
      _xy_coords { tile_width := t, scale := scale / ((m : ℚ) * t),
                   paddims := dim - 2, center := List.replicate dim 0 } 1 w k j z =
        (2 * (t : ℚ) * w + 2 * k + 0.625 * j + 0.125) * (scale / ((m : ℚ) * t)) ::
        (-((2 * (z : ℚ) + j + 1) * 2 * t - 0.5)) * (scale / ((m : ℚ) * t)) ::
        List.replicate (dim - 2) 0 := by
    simp only [_xy_coords]
    rw [zipWith_add_replicate_zero]
    · simp
    · simp
      omega
  have hZ :
      _xy_coords { tile_width := t, scale := scale / ((m : ℚ) * t),
                   paddims := dim - 2, center := List.replicate dim 0 } 0 w k j z =
        ((2 * (z : ℚ) + j + 1) * 2 * t - 0.5) * (scale / ((m : ℚ) * t)) ::
        (-(2 * (t : ℚ) * w + 2 * k + 0.625 * j + 0.125)) * (scale / ((m : ℚ) * t)) ::
        List.replicate (dim - 2) 0 := by
    simp only [_xy_coords]
    rw [zipWith_add_replicate_zero]
    · simp
    · simp
      omega
  rw [hW] at hu1
  obtain ⟨ha, h2⟩ := List.cons.inj hu1
  obtain ⟨hb, hrest⟩ := List.cons.inj h2
  rw [hZ, ← ha, ← hb, ← hrest]
  simp only [List.cons.injEq]
  refine ⟨by ring, by ring, trivial⟩

/-- Witness for the amended C5 at a concrete input: rows = 1, tile = 1,
scale 1, dim 2, index (·, 0, 0, 0, 0). -/
theorem C5_amended_witness :
    _xy_coords { tile_width := 1, scale := 1 / (((1 : Nat) : ℚ) * ((1 : Nat) : ℚ)),
                 paddims := 2 - 2, center := List.replicate 2 0 } 0 0 0 0 0 =
      (-(-1.5) : ℚ) :: (-(0.125) : ℚ) :: ([] : List ℚ) := by
  refine C5_amended exampleCoordGraph 1 1 (by norm_num) (by norm_num) rfl rfl
    1 2 (by norm_num) 0 0 0 0 _ rfl 0.125 (-1.5) [] ?_
  simp only [_xy_coords]
  norm_num [List.replicate]

/-! ### Layout-level helper lemmas -/

theorem placer_ok_rows_tile (G : ZGraph) (scale : ℚ) (center : Option (List ℚ))
    (dim : Nat) (env : PlacerEnv)
    (h : zephyr_node_placer_2d G scale center dim = .ok env) :
    ∃ m t, G.rows = some m ∧ G.tile = some t := by
  unfold zephyr_node_placer_2d at h
  rcases hr : G.rows with _ | m <;> rcases htl : G.tile with _ | t <;>
    rw [hr, htl] at h <;> simp only [] at h
  · exact absurd h (fun hh => Except.noConfusion hh)
  · exact absurd h (fun hh => Except.noConfusion hh)
  · exact absurd h (fun hh => Except.noConfusion hh)
  · exact ⟨m, t, rfl, rfl⟩

theorem layout_family_error (G : ZGraph) (scale : ℚ) (center : Option (List ℚ))
    (dim : Nat) (hfam : G.family ≠ some "zephyr") :
    zephyr_layout G scale center dim = .error familyError := by
  unfold zephyr_layout
  rw [if_pos hfam]

theorem layout_error_ne_family (G : ZGraph) (scale : ℚ) (center : Option (List ℚ))
    (dim : Nat) (e : String) (hfam : G.family = some "zephyr")
    (h : zephyr_layout G scale center dim = .error e) : e ≠ familyError := by
  unfold zephyr_layout at h
  rw [if_neg (by simp [hfam])] at h
  cases hp : zephyr_node_placer_2d G scale center dim with
  | error e2 =>
    rw [hp] at h
    simp only [] at h
    have he : e2 = e := Except.error.inj h
    rcases placer_error_cases G scale center dim e2 hp with h1 | h1 | h1 | h1 <;>
      · rw [← he, h1]
        decide
  | ok env =>
    rw [hp] at h
    simp only [] at h
    by_cases hl : G.labels = some "coordinate"
    · rw [if_pos hl] at h
      rw [mapPos_error _ _ _ h]
      decide
    · rw [if_neg hl] at h
      by_cases hd : G.data = true
      · rw [if_pos hd] at h
        rw [mapPos_error _ _ _ h]
        decide
      · rw [if_neg hd] at h
        rcases hr : G.rows with _ | m <;> rcases htl : G.tile with _ | t <;>
          rw [hr, htl] at h <;> simp only [] at h
        · rw [← Except.error.inj h]
          decide
        · rw [← Except.error.inj h]
          decide
        · rw [← Except.error.inj h]
          decide
        · rw [mapPos_error _ _ _ h]
          decide

theorem layout_error_cases (G : ZGraph) (scale : ℚ) (center : Option (List ℚ))
    (dim : Nat) (e : String) (h : zephyr_layout G scale center dim = .error e) :
    e = familyError ∨ e = zeroDivisionError ∨ e = noneArithmeticError ∨
      e = dimError ∨ e = centerError ∨ e = nodeError := by
  by_cases hfam : G.family = some "zephyr"
  · unfold zephyr_layout at h
    rw [if_neg (by simp [hfam])] at h
    cases hp : zephyr_node_placer_2d G scale center dim with
    | error e2 =>
      rw [hp] at h
      simp only [] at h
      rw [← Except.error.inj h]
      rcases placer_error_cases G scale center dim e2 hp with h1 | h1 | h1 | h1 <;>
        rw [h1] <;> simp
    | ok env =>
      rw [hp] at h
      simp only [] at h
      by_cases hl : G.labels = some "coordinate"
      · rw [if_pos hl] at h
        rw [mapPos_error _ _ _ h]
        simp
      · rw [if_neg hl] at h
        by_cases hd : G.data = true
        · rw [if_pos hd] at h
          rw [mapPos_error _ _ _ h]
          simp
        · rw [if_neg hd] at h
          rcases hr : G.rows with _ | m <;> rcases htl : G.tile with _ | t <;>
            rw [hr, htl] at h <;> simp only [] at h
          · rw [← Except.error.inj h]
            simp
          · rw [← Except.error.inj h]
            simp
          · rw [← Except.error.inj h]
            simp
          · rw [mapPos_error _ _ _ h]
            simp
  · rw [layout_family_error G scale center dim hfam] at h
    exact Or.inl (Except.error.inj h).symm

theorem mapPos_keys (l : List PyVal) (f : PyVal → Option (List ℚ))
    (h : ∀ v ∈ l, (f v).isSome = true) :
    ∃ ps, mapPos l f = .ok ps ∧ ps.map Prod.fst = l := by
  refine ⟨l.map (fun v => (v, (f v).getD [])),
    mapPos_eq_map l f (fun v => (f v).getD []) (fun v hv => ?_), ?keys⟩
  case keys =>
    rw [List.map_map]
    have hid : (Prod.fst ∘ fun v => (v, (f v).getD ([] : List ℚ))) = id := rfl
    rw [hid, List.map_id]
  rcases hf : f v with _ | p
  · have hsv := h v hv
    rw [hf] at hsv
    exact absurd hsv (by simp)
  · simp [hf]

theorem opt_map_getD (o : Option ZIdx) (g : ZIdx → List ℚ)
    (h : o.isSome = true) : o.map g = some ((o.map g).getD []) := by
  rcases o with _ | i
  · exact absurd h (by simp)
  · simp

/-! ### Claim C2: family validation and node coverage -/

/-- C2: `zephyr_layout` raises the validation error exactly when the graph is
not tagged with family "zephyr"; when the graph is Zephyr-tagged, the mapper
construction succeeds for the given parameters, and every node identifier
fits the graph's labeling scheme, it returns a position map whose key list is
exactly the graph's node list. -/
theorem C2_layout_validation (G : ZGraph) (scale : ℚ) (center : Option (List ℚ))
    (dim : Nat) :
    (zephyr_layout G scale center dim = .error familyError ↔
      G.family ≠ some "zephyr") ∧
    (∀ env, G.family = some "zephyr" →
      zephyr_node_placer_2d G scale center dim = .ok env → goodNodes G →
      ∃ pos, zephyr_layout G scale center dim = .ok pos ∧
        pos.map Prod.fst = G.nodes) := by
  constructor
  · constructor
    · intro h
      by_contra hfam
      exact layout_error_ne_family G scale center dim familyError hfam h rfl
    · exact layout_family_error G scale center dim
  · intro env hfam hp hgood
    obtain ⟨m, t, hr, htl⟩ := placer_ok_rows_tile G scale center dim env hp
    unfold zephyr_layout
    rw [if_neg (by simp [hfam]), hp]
    simp only []
    unfold goodNodes at hgood
    by_cases hl : G.labels = some "coordinate"
    · rw [if_pos hl]
      rw [if_pos hl] at hgood
      exact mapPos_keys _ _ (fun v hv => by simp [hgood v hv])
    · rw [if_neg hl]
      rw [if_neg hl] at hgood
      by_cases hd : G.data = true
      · rw [if_pos hd]
        rw [if_pos hd] at hgood
        exact mapPos_keys _ _ (fun v hv => by simp [hgood v hv])
      · rw [if_neg hd]
        rw [if_neg hd] at hgood
        rw [hr, htl]
        simp only []
        exact mapPos_keys _ _ (fun v hv => by simp [hgood v hv])

/-- Witness for C2 at concrete inputs: a graph tagged "chimera" is rejected
with the validation error, and the rows = 1, tile = 1 Zephyr lattice is not. -/
theorem C2_layout_validation_witness :
    zephyr_layout nonZephyrGraph 1 none 2 = .error familyError ∧
    zephyr_layout exampleCoordGraph 1 none 2 ≠ .error familyError := by
  constructor
  · exact (C2_layout_validation nonZephyrGraph 1 none 2).1.mpr (by decide)
  · obtain ⟨pos, hpos, hkeys⟩ := (C2_layout_validation exampleCoordGraph 1 none 2).2
      { tile_width := 1, scale := 1 / (((1 : Nat) : ℚ) * ((1 : Nat) : ℚ)),
        paddims := 2 - 2, center := List.replicate 2 0 }
      rfl rfl (by decide)
    rw [hpos]
    exact fun hh => Except.noConfusion hh

/-! ### Claim C6: the index-resolution priority -/

/-- C6: `zephyr_layout` resolves node indices exactly by the spec's priority
policy `resolve_index_spec`: coordinate labeling first (the node identifier
itself), then embedded node data (the `zephyr_index` attribute), then the
linear conversion built from the graph's rows and tile attributes — the
position of every node is the mapper applied to the index that policy
resolves. -/
theorem C6_index_resolution (G : ZGraph) (scale : ℚ) (center : Option (List ℚ))
    (dim : Nat) (env : PlacerEnv) (hfam : G.family = some "zephyr")
    (hp : zephyr_node_placer_2d G scale center dim = .ok env)
    (hgood : ∀ v ∈ G.nodes, (resolve_index_spec G v).isSome = true) :
    zephyr_layout G scale center dim =
      .ok (G.nodes.map (fun v =>
        (v, ((resolve_index_spec G v).map (applyPlacer env)).getD []))) := by
  obtain ⟨m, t, hr, htl⟩ := placer_ok_rows_tile G scale center dim env hp
  unfold zephyr_layout
  rw [if_neg (by simp [hfam]), hp]
  simp only []
  by_cases hl : G.labels = some "coordinate"
  · rw [if_pos hl]
    refine mapPos_eq_map _ _ _ (fun v hv => ?_)
    have hres : resolve_index_spec G v = unpack5 v := by
      simp [resolve_index_spec, hl]
    rw [← hres]
    exact opt_map_getD _ _ (hgood v hv)
  · rw [if_neg hl]
    by_cases hd : G.data = true
    · rw [if_pos hd]
      refine mapPos_eq_map _ _ _ (fun v hv => ?_)
      have hres : resolve_index_spec G v = attrLookup G.nodeData v := by
        simp [resolve_index_spec, hl, hd]
      rw [← hres]
      exact opt_map_getD _ _ (hgood v hv)
    · rw [if_neg hd]
      rw [hr, htl]
      simp only []
      refine mapPos_eq_map _ _ _ (fun v hv => ?_)
      have hres : resolve_index_spec G v = (asInt v).map (linear_to_zephyr m t) := by
        simp [resolve_index_spec, hl, hd, hr, htl]
      have hcomp : ((asInt v).map (linear_to_zephyr m t)).map (applyPlacer env) =
          (asInt v).map (fun n => applyPlacer env (linear_to_zephyr m t n)) := by
        cases asInt v <;> rfl
      rw [← hcomp, ← hres]
      exact opt_map_getD _ _ (hgood v hv)

/-- Witness for C6 at a concrete input exercising the priority: a graph with
labeling "coordinate" and node data present whose `zephyr_index` attribute
disagrees with the node identifier — the identifier wins. -/
theorem C6_index_resolution_witness :
    zephyr_layout priorityGraph 1 none 2 =
      .ok [(PyVal.tup { u := 1, w := 0, k := 0, j := 0, z := 0 },
            [0.125, -1.5])] := by
  rw [C6_index_resolution priorityGraph 1 none 2
    { tile_width := 1, scale := 1 / (((1 : Nat) : ℚ) * ((1 : Nat) : ℚ)),
      paddims := 2 - 2, center := List.replicate 2 0 }
    rfl rfl (by decide)]
  simp only [priorityGraph, resolve_index_spec, unpack5, List.map]
  norm_num [applyPlacer, _xy_coords, List.replicate]

/-! ### Claim C7: the yield-drawing metadata check -/

/-- C7 as stated is false: a graph with family, columns, tile and labels
metadata but no rows entry does not make `draw_zephyr_yield` fail — the rows
attribute is never read, so its absence is not detected. -/
theorem C7_counterexample :
    noRowsGraph.rows = none ∧ (draw_zephyr_yield noRowsGraph).isOk = true :=
  ⟨rfl, rfl⟩

/-- C7 amended: `draw_zephyr_yield` fails with the missing-metadata
configuration error, before any drawing, iff the graph is not tagged
family "zephyr" or lacks the columns, tile or labels metadata; the rows
attribute (named in the error message) is not actually required. -/
theorem C7_amended_metadata_check (G : ZGraph) :
    draw_zephyr_yield G = .error yieldMetadataError ↔
      ¬ (G.family = some "zephyr" ∧ G.columns.isSome = true ∧
         G.tile.isSome = true ∧ G.labels.isSome = true) := by
  constructor
  · intro h hc
    obtain ⟨hf, hcol, htl, hlb⟩ := hc
    obtain ⟨mc, hmc⟩ := Option.isSome_iff_exists.mp hcol
    obtain ⟨tc, htc⟩ := Option.isSome_iff_exists.mp htl
    obtain ⟨lc, hlc⟩ := Option.isSome_iff_exists.mp hlb
    unfold draw_zephyr_yield at h
    rw [hf, hmc, htc, hlc] at h
    simp only [] at h
    rw [if_neg (by simp)] at h
    cases hly : zephyr_layout (zephyr_graph mc tc (decide (lc = "coordinate"))) 1 none 2 with
    | error e =>
      rw [hly] at h
      simp only [] at h
      have he : e = yieldMetadataError := Except.error.inj h
      rcases layout_error_cases _ _ _ _ e hly with h1 | h1 | h1 | h1 | h1 | h1 <;>
        · rw [h1] at he
          exact absurd he (by decide)
    | ok pos =>
      rw [hly] at h
      simp only [] at h
      exact Except.noConfusion h
  · intro hn
    unfold draw_zephyr_yield
    rcases hf : G.family with _ | f
    · rfl
    · rcases hc2 : G.columns with _ | mc
      · rfl
      · rcases ht2 : G.tile with _ | tc
        · rfl
        · rcases hl2 : G.labels with _ | lc
          · rfl
          · have hnz : f ≠ "zephyr" := by
              intro he
              exact hn ⟨by rw [hf, he], by rw [hc2]; rfl, by rw [ht2]; rfl,
                by rw [hl2]; rfl⟩
            simp only []
            rw [if_pos hnz]

/-- Witness for the amended C7 at a concrete input: a Zephyr-tagged graph
without the tile metadata entry is rejected with the metadata error. -/
theorem C7_amended_metadata_check_witness :
    draw_zephyr_yield noTileGraph = .error yieldMetadataError :=
  (C7_amended_metadata_check noTileGraph).mpr (by decide)

/-! ### Claim C9: rows is never read by the yield drawer -/

/-- C9: with family, columns, tile and labels metadata present,
`draw_zephyr_yield` never raises the missing-metadata error even when rows is
absent, its result does not depend on the rows entry at all, and the perfect
reference graph it builds is `zephyr_graph` of the columns value (as the grid
size) and the tile value only. -/
theorem C9_yield_ignores_rows (G : ZGraph) (m t : Nat) (l : String)
    (hf : G.family = some "zephyr") (hc : G.columns = some m)
    (htl : G.tile = some t) (hl : G.labels = some l) :
    draw_zephyr_yield G ≠ .error yieldMetadataError ∧
    (∀ r, draw_zephyr_yield { G with rows := r } = draw_zephyr_yield G) ∧
    (∀ res, draw_zephyr_yield G = .ok res →
      res.1 = zephyr_graph m t (decide (l = "coordinate"))) := by
  refine ⟨?_, fun r => rfl, ?_⟩
  · intro h
    unfold draw_zephyr_yield at h
    rw [hf, hc, htl, hl] at h
    simp only [] at h
    rw [if_neg (by simp)] at h
    cases hly : zephyr_layout (zephyr_graph m t (decide (l = "coordinate"))) 1 none 2 with
    | error e =>
      rw [hly] at h
      simp only [] at h
      have he : e = yieldMetadataError := Except.error.inj h
      rcases layout_error_cases _ _ _ _ e hly with h1 | h1 | h1 | h1 | h1 | h1 <;>
        · rw [h1] at he
          exact absurd he (by decide)
    | ok pos =>
      rw [hly] at h
      simp only [] at h
      exact Except.noConfusion h
  · intro res hres
    unfold draw_zephyr_yield at hres
    rw [hf, hc, htl, hl] at hres
    simp only [] at hres
    rw [if_neg (by simp)] at hres
    cases hly : zephyr_layout (zephyr_graph m t (decide (l = "coordinate"))) 1 none 2 with
    | error e =>
      rw [hly] at hres
      simp only [] at hres
      exact absurd hres (fun hh => Except.noConfusion hh)
    | ok pos =>
      rw [hly] at hres
      simp only [] at hres
      rw [← Except.ok.inj hres]

/-- Witness for C9 at a concrete input: a rows-less integer-labeled graph. -/
theorem C9_yield_ignores_rows_witness :
    draw_zephyr_yield noRowsIntGraph ≠ .error yieldMetadataError :=
  (C9_yield_ignores_rows noRowsIntGraph 1 1 "int" rfl rfl rfl rfl).1

/-! ### Claim C10: the input graph is left unchanged -/

/-- C10: the state-passing form of `zephyr_layout`, which threads the graph
through every access the source makes, returns the input graph unchanged
(same nodes, edges, metadata and node attributes) next to the same position
map that `zephyr_layout` computes: the layout never mutates its input. -/
theorem C10_input_graph_unchanged (G : ZGraph) (scale : ℚ)
    (center : Option (List ℚ)) (dim : Nat) :
    zephyr_layout_run G scale center dim =
      (zephyr_layout G scale center dim, G) := by
  unfold zephyr_layout_run zephyr_layout
  simp only []
  by_cases hf : G.family ≠ some "zephyr"
  · simp only [if_pos hf]
  · simp only [if_neg hf]
    cases hp : zephyr_node_placer_2d G scale center dim with
    | error e => rfl
    | ok env =>
      by_cases hl : G.labels = some "coordinate"
      · simp only [if_pos hl]
      · simp only [if_neg hl]
        by_cases hd : G.data = true
        · simp only [if_pos hd]
        · simp only [if_neg hd]
          cases G.rows <;> cases G.tile <;> rfl

end ZephyrLayout
